import Mathlib

/-!
Shallow embedding of the two task-queue scripts of the repository:

* `agent-infra/scripts/queue.py` — the local SQLite-backed claim store
  (namespace `Queue`).  The database is modelled as a list of rows in
  rowid order; each SQL statement of the script becomes one Lean
  function, so a Python function that issues several statements becomes
  a composition of those functions and concurrency can be modelled by
  interleaving the statement-level functions.
* `agent-infra/scripts/shared_queue.py` — the git-backed shared queue
  (namespace `SharedQueue`).  The tasks directory is modelled as a list
  of task records keyed by their id string; each `run_git` call is
  modelled by the command it issues together with a success flag that
  the script receives and discards.
-/

namespace Queue

/-- One row of the `tasks` table of `queue.py`.  Columns follow the
column list at queue.py line 85.  `agent` is the target-agent column;
`priority` is an integer (lower first); `created_at` is the
`datetime('now')` creation instant, modelled as a natural number since
the timestamps are totally ordered.  `id` is the store-assigned rowid. -/
structure LTask where
  id : Nat
  title : String
  description : Option String
  task_type : String
  priority : Int
  agent : String
  status : String
  created_at : Nat
  claimed_at : Option Nat
  claimed_by : Option String
  completed_at : Option Nat
  result : Option String
  error : Option String
  deriving DecidableEq, Repr

/-- The `ORDER BY priority, created_at` comparison used by `claim_task`
(queue.py lines 64, 69): strict lexicographic order on
`(priority, created_at)`. -/
def keyLt (t u : LTask) : Prop :=
  t.priority < u.priority ∨ (t.priority = u.priority ∧ t.created_at < u.created_at)

instance (t u : LTask) : Decidable (keyLt t u) := by
  unfold keyLt; infer_instance

/-- Equality of the `ORDER BY` sort key `(priority, created_at)`. -/
def keyEq (t u : LTask) : Prop :=
  t.priority = u.priority ∧ t.created_at = u.created_at

instance (t u : LTask) : Decidable (keyEq t u) := by
  unfold keyEq; infer_instance

/-- The invariant of spec §3: a task with `status = pending` has
`claimed_by = null`. -/
def pendingUnclaimed (db : List LTask) : Prop :=
  ∀ t ∈ db, t.status = "pending" → t.claimed_by = none

instance (db : List LTask) : Decidable (pendingUnclaimed db) := by
  unfold pendingUnclaimed; infer_instance

/-- The `WHERE` clause of the claim query (queue.py lines 64, 69):
`status='pending' AND (agent=? OR agent='any')`, plus `task_type=?`
when a type filter is given. -/
def eligible (agent : String) (tf : Option String) (t : LTask) : Bool :=
  t.status == "pending" && (t.agent == agent || t.agent == "any") &&
    (match tf with
     | none => true
     | some ty => t.task_type == ty)

/-- SQLite's evaluation of `ORDER BY priority, created_at LIMIT 1` over a
scan: keep the current best row and replace it only when a later row is
strictly smaller under `keyLt`, so the first row in scan (rowid) order
wins among ties.  `acc` is the best row seen so far. -/
def selectMin : Option LTask → List LTask → Option LTask
  | best, [] => best
  | none, t :: rest => selectMin (some t) rest
  | some b, t :: rest => selectMin (some (if keyLt t b then t else b)) rest

/-- The SELECT statement of `claim_task` (queue.py lines 63–71): the
eligible pending row minimal under `(priority, created_at)`, ties
resolved to the earliest row in rowid order. -/
def claimSelect (db : List LTask) (agent : String) (tf : Option String) : Option LTask :=
  selectMin none (db.filter (eligible agent tf))

/-- The UPDATE statement of `claim_task` (queue.py lines 78–81):
`UPDATE tasks SET status='running', claimed_at=now, claimed_by=agent
WHERE id=?` — unconditional on the current status of the row. -/
def updateClaim (db : List LTask) (tid : Nat) (agent : String) (now : Nat) : List LTask :=
  db.map fun t =>
    if t.id == tid then
      { t with status := "running", claimed_at := some now, claimed_by := some agent }
    else t

/-- Function `claim_task` (queue.py lines 60–86) run without interleaving: the
SELECT picks a row, the UPDATE flips it to running, and the final
`SELECT * FROM tasks WHERE id=?` re-reads the updated row, which is what
the function prints.  Returns the printed row (`none` models the
`{"status": "empty"}` answer) together with the database afterwards. -/
def claim_task (db : List LTask) (agent : String) (tf : Option String) (now : Nat) :
    Option LTask × List LTask :=
  match claimSelect db agent tf with
  | none => (none, db)
  | some t =>
      let db' := updateClaim db t.id agent now
      (db'.find? (fun u => u.id == t.id), db')

/-- Function `add_task` (queue.py lines 35–42) inserts a row giving only
`(title, description, task_type, priority, agent)`.

Modelled from the spec: the remaining columns take the defaults of
`agent-infra/schema.sql`, which is not among the source files; per spec
§3 a record is created with `status = "pending"`, `created_at` set once
at creation, and null `claimed_by` / `claimed_at` / `completed_at` /
`result` / `error`.  The rowid is the next integer. -/
def add_task (db : List LTask) (title : String) (desc : Option String)
    (ttype : String) (prio : Int) (agent : String) (now : Nat) : List LTask × Nat :=
  let tid := db.length + 1
  (db ++ [⟨tid, title, desc, ttype, prio, agent, "pending", now, none, none, none, none, none⟩],
   tid)

/-- The UPDATE of `complete_task` (queue.py lines 88–95):
`UPDATE tasks SET status='done', completed_at=now, result=? WHERE id=?`
— no check of the current status and no check that the id exists. -/
def complete_task (db : List LTask) (tid : Nat) (result : Option String) (now : Nat) :
    List LTask :=
  db.map fun t =>
    if t.id == tid then
      { t with status := "done", completed_at := some now, result := result }
    else t

/-- What `complete_task` prints (queue.py line 95): always
`{"id": task_id, "status": "done"}`, whatever the database held. -/
def complete_report (tid : Nat) : Nat × String := (tid, "done")

/-- The UPDATE of `fail_task` (queue.py lines 97–104):
`UPDATE tasks SET status='failed', completed_at=now, error=? WHERE id=?`
— again unconditional. -/
def fail_task (db : List LTask) (tid : Nat) (error : Option String) (now : Nat) :
    List LTask :=
  db.map fun t =>
    if t.id == tid then
      { t with status := "failed", completed_at := some now, error := error }
    else t

/-- What `fail_task` prints (queue.py line 104): always
`{"id": task_id, "status": "failed"}`. -/
def fail_report (tid : Nat) : Nat × String := (tid, "failed")

/-- Comparison `ORDER BY priority, created_at` as a strict comparison for the
status-filtered branch of `list_tasks` (queue.py line 48). -/
def listLtStatus (t u : LTask) : Bool := decide (keyLt t u)

/-- Rank of a status under
`ORDER BY status='running' DESC, status='pending' DESC` (queue.py
line 53): running rows first, then pending rows, then the rest. -/
def statusRank (s : String) : Nat :=
  if s == "running" then 0 else if s == "pending" then 1 else 2

/-- The full comparison of the unfiltered `list_tasks` query (queue.py
line 53): status rank, then `(priority, created_at)`. -/
def listLtAll (t u : LTask) : Bool :=
  statusRank t.status < statusRank u.status ||
    (statusRank t.status == statusRank u.status && decide (keyLt t u))

/-- Stable insertion of a row into a sorted list: a row moves ahead of
another only when strictly smaller, which matches a SQL sort reading
rows in rowid order. -/
def insertRow (lt : LTask → LTask → Bool) (x : LTask) : List LTask → List LTask
  | [] => [x]
  | y :: ys => if lt x y then x :: y :: ys else y :: insertRow lt x ys

/-- Stable insertion sort implementing `ORDER BY`. -/
def sortRows (lt : LTask → LTask → Bool) : List LTask → List LTask
  | [] => []
  | x :: xs => insertRow lt x (sortRows lt xs)

/-- Function `list_tasks` (queue.py lines 44–58): with a status filter, the rows
of that status ordered by `(priority, created_at)`; without one, all
rows ordered running-first, pending-second, then
`(priority, created_at)`; in both branches `LIMIT ?` truncates to
`limit` rows. -/
def list_tasks (db : List LTask) (status : Option String) (limit : Nat) : List LTask :=
  match status with
  | some s => (sortRows listLtStatus (db.filter (fun t => t.status == s))).take limit
  | none => (sortRows listLtAll db).take limit

/-- The CLI dispatch for `list` (queue.py line 141) and the Python
default (line 44): when no `--limit` is given, `limit` is 10. -/
def list_tasks_cli (db : List LTask) (status : Option String) : List LTask :=
  list_tasks db status 10

end Queue

namespace SharedQueue

/-- One task file `tasks/<id>.json` of `shared_queue.py`, with the
fields written by `add_task` (shared_queue.py lines 62–76).  Timestamps
are the `datetime.now().isoformat()` strings; only equality of
timestamps matters to the script, so they stay `String`. -/
structure STask where
  id : String
  title : String
  description : Option String
  type : String
  for_agent : String
  status : String
  created_at : String
  created_by : String
  claimed_by : Option String
  claimed_at : Option String
  completed_at : Option String
  result : Option String
  deriving DecidableEq, Repr

/-- The JSON answer a shared-queue operation prints: the not-found
error (shared_queue.py lines 109, 134), the
`{'error': 'Task already <status>'}` rejection of `claim_task`
(line 114), or the full task record on success. -/
inductive SResult where
  | notFound (tid : String)
  | alreadyStatus (status : String)
  | ok (t : STask)
  deriving DecidableEq, Repr

/-- Reading `tasks/<id>.json`: the record with that id, if the file
exists.  The file system keys files by name, so the first (only) match
is returned. -/
def lookupTask (tasks : List STask) (tid : String) : Option STask :=
  tasks.find? (fun t => t.id == tid)

/-- Writing `task_file.write_text(...)` over an existing file: replace the
record stored under `t.id` by `t`. -/
def writeTask (tasks : List STask) (t : STask) : List STask :=
  tasks.map fun u => if u.id == t.id then t else u

/-- Function `add_task` (shared_queue.py lines 58–86), the file-system part: a
new record with the given fresh id, `status: 'pending'`, null
`claimed_by`/`claimed_at`/`completed_at`/`result`. -/
def sharedAdd (tasks : List STask) (tid title : String) (desc : Option String)
    (ttype for_agent now createdBy : String) : List STask :=
  tasks ++ [⟨tid, title, desc, ttype, for_agent, "pending", now, createdBy,
            none, none, none, none⟩]

/-- Function `claim_task` (shared_queue.py lines 102–126), the file-system part
run on the working copy left by `sync()`: missing file → not-found
error and no change; `status != 'pending'` → `Task already <status>`
error and no change; otherwise the record is rewritten with
`status='running', claimed_by=agent, claimed_at=now` and printed. -/
def sharedClaim (tasks : List STask) (tid agent now : String) : SResult × List STask :=
  match lookupTask tasks tid with
  | none => (.notFound tid, tasks)
  | some task =>
      if task.status != "pending" then
        (.alreadyStatus task.status, tasks)
      else
        let t' := { task with status := "running",
                               claimed_by := some agent, claimed_at := some now }
        (.ok t', writeTask tasks t')

/-- Function `complete_task` (shared_queue.py lines 128–147), the file-system
part: missing file → not-found error and no change; otherwise the
record — whatever its status or claimant — is rewritten with
`status='done', completed_at=now, result=?` and printed. -/
def sharedComplete (tasks : List STask) (tid : String) (result : Option String)
    (now : String) : SResult × List STask :=
  match lookupTask tasks tid with
  | none => (.notFound tid, tasks)
  | some task =>
      let t' := { task with status := "done",
                             completed_at := some now, result := result }
      (.ok t', writeTask tasks t')

/-- The git commands `shared_queue.py` issues through `run_git`. -/
inductive GitCmd where
  | pullRebase
  | push
  | addFile (path : String)
  | commit (msg : String)
  deriving DecidableEq, Repr

/-- Function `run_git` (shared_queue.py lines 29–37): runs one git command and
returns whether it exited 0 — a value every caller in the script
discards.  The embedding returns the success flag together with the
issued command. -/
def run_git (outcome : Bool) (cmd : GitCmd) : Bool × List GitCmd :=
  (outcome, [cmd])

/-- The trace of `sync()` (shared_queue.py lines 39–42):
`git pull --rebase origin main` then `git push origin main`, each
executed exactly once with its result thrown away, whatever the two
exit codes `pullOk` and `pushOk` are. -/
def syncTrace (pullOk pushOk : Bool) : List GitCmd :=
  (run_git pullOk GitCmd.pullRebase).2 ++ (run_git pushOk GitCmd.push).2

/-- The environment a shared-queue operation runs against: whether the
`git pull --rebase` of `sync()` succeeds, the working copy it leaves
when it does, and the exit codes of the trailing
`git commit` / `git push`. -/
structure GitEnv where
  pullOk : Bool
  pullMerge : List STask
  commitOk : Bool
  pushOk : Bool
  deriving Repr

/-- The working copy after `sync()`: the merged state when the pull
succeeded, the untouched local copy when it failed (its exit code is
discarded, so the operation simply continues on the old files). -/
def pullState (env : GitEnv) (loc : List STask) : List STask :=
  if env.pullOk then env.pullMerge else loc

/-- Function `claim_task` end to end (shared_queue.py lines 102–126): `sync()`,
then the file-system claim; the commit and push exit codes in `env` are
received from `run_git` and discarded, so they do not appear in the
result. -/
def sharedClaimRun (env : GitEnv) (loc : List STask) (tid agent now : String) :
    SResult × List STask :=
  sharedClaim (pullState env loc) tid agent now

/-- Function `add_task` end to end (shared_queue.py lines 58–86). -/
def sharedAddRun (env : GitEnv) (loc : List STask) (tid title : String)
    (desc : Option String) (ttype for_agent now createdBy : String) : List STask :=
  sharedAdd (pullState env loc) tid title desc ttype for_agent now createdBy

/-- Function `complete_task` end to end (shared_queue.py lines 128–147). -/
def sharedCompleteRun (env : GitEnv) (loc : List STask) (tid : String)
    (result : Option String) (now : String) : SResult × List STask :=
  sharedComplete (pullState env loc) tid result now

/-- The invariant of spec §3 for the shared store: a task with
`status = pending` has `claimed_by = null`. -/
def sharedPendingUnclaimed (tasks : List STask) : Prop :=
  ∀ t ∈ tasks, t.status = "pending" → t.claimed_by = none

instance (tasks : List STask) : Decidable (sharedPendingUnclaimed tasks) := by
  unfold sharedPendingUnclaimed; infer_instance

end SharedQueue

namespace Ex

/-- A store holding a single pending task targeted at any agent. -/
def only1 : Queue.LTask :=
  ⟨1, "only", none, "general", 50, "any", "pending", 0, none, none, none, none, none⟩

/-- Row `only1` after the claim UPDATE of agent `a` at time 10. -/
def only1A : Queue.LTask :=
  { only1 with status := "running", claimed_at := some 10, claimed_by := some "a" }

/-- Row `only1` after the claim UPDATE of agent `b` at time 11. -/
def only1B : Queue.LTask :=
  { only1 with status := "running", claimed_at := some 11, claimed_by := some "b" }

/-- Two pending rows with identical priority and identical creation
instant, in insertion (rowid) order. -/
def tie1 : Queue.LTask :=
  ⟨1, "first", none, "general", 50, "any", "pending", 7, none, none, none, none, none⟩

def tie2 : Queue.LTask :=
  ⟨2, "second", none, "general", 50, "any", "pending", 7, none, none, none, none, none⟩

/-- A shared-queue task still pending. -/
def sp : SharedQueue.STask :=
  ⟨"t1", "T", none, "general", "any", "pending", "2024-01-01T00:00:00", "carol",
   none, none, none, none⟩

/-- Task `sp` claimed by replica `alice` at the earlier instant. -/
def spAlice : SharedQueue.STask :=
  { sp with status := "running", claimed_by := some "alice",
            claimed_at := some "2024-01-01T00:01:00" }

/-- Task `sp` claimed by replica `bob` at the later instant. -/
def spBob : SharedQueue.STask :=
  { sp with status := "running", claimed_by := some "bob",
            claimed_at := some "2024-01-01T00:02:00" }

/-- Task `spAlice` after the `complete_task` of `bob` ran over it. -/
def spDone : SharedQueue.STask :=
  { spAlice with status := "done", completed_at := some "2024-01-01T00:03:00",
                 result := some "r" }

/-- The store of spec §8's priority-ordering scenario: tasks of
priorities 30, 10, 20 added in that order. -/
def dbPrio : List Queue.LTask :=
  (Queue.add_task
    (Queue.add_task
      (Queue.add_task [] "A" none "general" 30 "any" 0).1
      "B" none "general" 10 "any" 1).1
    "C" none "general" 20 "any" 2).1

/-- The same store after the first claim. -/
def dbPrio1 : List Queue.LTask := (Queue.claim_task dbPrio "x" none 3).2

/-- The same store after the second claim. -/
def dbPrio2 : List Queue.LTask := (Queue.claim_task dbPrio1 "x" none 4).2

/-- The row the first claim against `dbPrio` prints: task B (priority
10) flipped to running. -/
def vB : Queue.LTask :=
  ⟨2, "B", none, "general", 10, "any", "running", 1, some 3, some "x", none, none, none⟩

end Ex

namespace Queue

theorem keyLt_irrefl (t : LTask) : ¬ keyLt t t := by
  unfold keyLt; omega

theorem keyLt_trans {a b c : LTask} (h₁ : keyLt a b) (h₂ : keyLt b c) : keyLt a c := by
  unfold keyLt at *; omega

theorem keyLt_of_not_lt_of_lt {x b t : LTask} (h₁ : ¬ keyLt x b) (h₂ : keyLt x t) :
    keyLt b t := by
  unfold keyLt at *; omega

theorem keyLt_of_lt_of_keyEq {x b t : LTask} (h₁ : keyLt x b) (h₂ : keyEq b t) :
    keyLt x t := by
  unfold keyLt keyEq at *; omega

theorem keyEq_of_between {x b t : LTask} (h₁ : ¬ keyLt x b) (h₂ : keyEq x t)
    (h₃ : ¬ keyLt b t) : keyEq t b := by
  unfold keyLt keyEq at *; omega

/-- Running `selectMin` from a candidate always yields a row. -/
theorem selectMin_isSome (l : List LTask) (b : LTask) :
    ∃ t, selectMin (some b) l = some t := by
  induction l generalizing b with
  | nil => exact ⟨b, rfl⟩
  | cons x xs ih => exact ih _

/-- The row kept by `selectMin` is the candidate or comes from the list. -/
theorem selectMin_mem {l : List LTask} {b t : LTask}
    (h : selectMin (some b) l = some t) : t = b ∨ t ∈ l := by
  induction l generalizing b with
  | nil =>
      simp only [selectMin, Option.some.injEq] at h
      exact Or.inl h.symm
  | cons x xs ih =>
      simp only [selectMin] at h
      by_cases hx : keyLt x b
      · rw [if_pos hx] at h
        rcases ih h with h' | h'
        · exact Or.inr (by rw [h']; exact List.mem_cons_self x xs)
        · exact Or.inr (List.mem_cons_of_mem x h')
      · rw [if_neg hx] at h
        rcases ih h with h' | h'
        · exact Or.inl h'
        · exact Or.inr (List.mem_cons_of_mem x h')

/-- Minimality: no row among the candidate and the remaining scan is
strictly smaller than the row `selectMin` keeps. -/
theorem selectMin_min {l : List LTask} {b t : LTask}
    (h : selectMin (some b) l = some t) : ∀ u ∈ b :: l, ¬ keyLt u t := by
  induction l generalizing b with
  | nil =>
      simp only [selectMin, Option.some.injEq] at h
      subst h
      intro u hu hlt
      rcases List.mem_cons.mp hu with rfl | hu'
      · exact keyLt_irrefl _ hlt
      · exact absurd hu' (List.not_mem_nil u)
  | cons x xs ih =>
      simp only [selectMin] at h
      by_cases hx : keyLt x b
      · rw [if_pos hx] at h
        have ih' := ih h
        intro u hu hlt
        rcases List.mem_cons.mp hu with rfl | hu'
        · exact ih' x (List.mem_cons_self x xs) (keyLt_trans hx hlt)
        · exact ih' u hu' hlt
      · rw [if_neg hx] at h
        have ih' := ih h
        intro u hu hlt
        rcases List.mem_cons.mp hu with rfl | hu'
        · exact ih' u (List.mem_cons_self _ _) hlt
        · rcases List.mem_cons.mp hu' with rfl | hu''
          · exact ih' b (List.mem_cons_self _ _) (keyLt_of_not_lt_of_lt hx hlt)
          · exact ih' u (List.mem_cons_of_mem _ hu'') hlt

/-- A later row whose key merely ties the candidate never replaces it:
when the kept row has the candidate's key, it is the candidate. -/
theorem selectMin_tie {l : List LTask} {b t : LTask}
    (h : selectMin (some b) l = some t) (he : keyEq t b) : t = b := by
  induction l generalizing b with
  | nil =>
      simp only [selectMin, Option.some.injEq] at h
      exact h.symm
  | cons x xs ih =>
      simp only [selectMin] at h
      by_cases hx : keyLt x b
      · rw [if_pos hx] at h
        exfalso
        have hmin := selectMin_min h x (List.mem_cons_self x xs)
        exact hmin (keyLt_of_lt_of_keyEq hx ⟨he.1.symm, he.2.symm⟩)
      · rw [if_neg hx] at h
        exact ih h he

/-- Among rows tying the kept row's key, the kept row is the one
earliest in scan order, hence of least id when the scan is in ascending
id order. -/
theorem selectMin_tie_first {l : List LTask} {b t : LTask}
    (hsort : (b :: l).Pairwise (fun p q => p.id < q.id))
    (h : selectMin (some b) l = some t) :
    ∀ u ∈ b :: l, keyEq u t → t.id ≤ u.id := by
  induction l generalizing b with
  | nil =>
      simp only [selectMin, Option.some.injEq] at h
      subst h
      intro u hu _
      rcases List.mem_cons.mp hu with h' | h'
      · rw [h']
      · exact absurd h' (List.not_mem_nil u)
  | cons x xs ih =>
      simp only [selectMin] at h
      have hbx : b.id < x.id :=
        (List.pairwise_cons.mp hsort).1 x (List.mem_cons_self x xs)
      have hsort' : (x :: xs).Pairwise (fun p q => p.id < q.id) :=
        (List.pairwise_cons.mp hsort).2
      by_cases hx : keyLt x b
      · rw [if_pos hx] at h
        have ih' := ih hsort' h
        intro u hu he
        rcases List.mem_cons.mp hu with h' | h'
        · exfalso
          have hmin := selectMin_min h x (List.mem_cons_self x xs)
          exact hmin (keyLt_of_lt_of_keyEq hx (h' ▸ he))
        · exact ih' u h' he
      · rw [if_neg hx] at h
        have hsb : (b :: xs).Pairwise (fun p q => p.id < q.id) := by
          refine List.pairwise_cons.mpr ⟨?_, (List.pairwise_cons.mp hsort').2⟩
          intro c hc
          exact lt_trans hbx ((List.pairwise_cons.mp hsort').1 c hc)
        have ih' := ih hsb h
        intro u hu he
        rcases List.mem_cons.mp hu with h' | h'
        · exact h' ▸ ih' b (List.mem_cons_self _ _) (h' ▸ he)
        · rcases List.mem_cons.mp h' with h'' | h''
          · have hbt : ¬ keyLt b t := selectMin_min h b (List.mem_cons_self _ _)
            have heq : keyEq t b := keyEq_of_between hx (h'' ▸ he) hbt
            have htb : t = b := selectMin_tie h heq
            rw [htb, h'']
            exact le_of_lt hbx
          · exact ih' u (List.mem_cons_of_mem _ h'') he

/-- Characterization of a successful claim SELECT: the chosen row is in
the table, satisfies the WHERE clause, and no other qualifying row is
strictly smaller under `(priority, created_at)`. -/
theorem claimSelect_spec {db : List LTask} {a : String} {tf : Option String} {t : LTask}
    (h : claimSelect db a tf = some t) :
    t ∈ db ∧ eligible a tf t = true ∧
      ∀ u ∈ db, eligible a tf u = true → ¬ keyLt u t := by
  unfold claimSelect at h
  cases hfl : db.filter (eligible a tf) with
  | nil =>
      rw [hfl] at h
      simp [selectMin] at h
  | cons f fs =>
      rw [hfl] at h
      simp only [selectMin] at h
      have htfl : t ∈ db.filter (eligible a tf) := by
        rw [hfl]
        rcases selectMin_mem h with h' | h'
        · rw [h']; exact List.mem_cons_self _ _
        · exact List.mem_cons_of_mem _ h'
      have hmf := List.mem_filter.mp htfl
      refine ⟨hmf.1, hmf.2, ?_⟩
      intro u hu he
      have hufl : u ∈ db.filter (eligible a tf) := List.mem_filter.mpr ⟨hu, he⟩
      rw [hfl] at hufl
      exact selectMin_min h u hufl

/-- When no row qualifies, the claim SELECT is empty. -/
theorem claimSelect_eq_none {db : List LTask} {a : String} {tf : Option String}
    (h : ∀ u ∈ db, ¬ eligible a tf u = true) : claimSelect db a tf = none := by
  unfold claimSelect
  have hfl : db.filter (eligible a tf) = [] := List.filter_eq_nil_iff.mpr h
  rw [hfl]
  rfl

/-- A qualifying row is pending. -/
theorem eligible_pending {a : String} {tf : Option String} {t : LTask}
    (h : eligible a tf t = true) : t.status = "pending" := by
  unfold eligible at h
  have := (Bool.and_eq_true _ _).mp ((Bool.and_eq_true _ _).mp h).1
  exact beq_iff_eq.mp this.1

/-- Unfolding `claim_task` when the SELECT finds a row. -/
theorem claim_task_eq_some {db : List LTask} {a : String} {tf : Option String}
    {now : Nat} {t0 : LTask} (hsel : claimSelect db a tf = some t0) :
    claim_task db a tf now =
      ((updateClaim db t0.id a now).find? (fun u => u.id == t0.id),
       updateClaim db t0.id a now) := by
  unfold claim_task
  rw [hsel]

/-- Unfolding `claim_task` when the SELECT comes back empty. -/
theorem claim_task_eq_none {db : List LTask} {a : String} {tf : Option String}
    {now : Nat} (hsel : claimSelect db a tf = none) :
    claim_task db a tf now = (none, db) := by
  unfold claim_task
  rw [hsel]

/-- The row the final re-read returns carries the requested id. -/
theorem find_id_eq {l : List LTask} {tid : Nat} {v : LTask}
    (h : l.find? (fun u => u.id == tid) = some v) : v.id = tid := by
  have := List.find?_some h
  simpa using this

/-- A row still pending after the claim UPDATE was untouched by it: it
was already in the table and its id differs from the updated id. -/
theorem updateClaim_pending_mem {db : List LTask} {tid : Nat} {a : String}
    {now : Nat} {u : LTask} (hu : u ∈ updateClaim db tid a now)
    (hp : u.status = "pending") : u ∈ db ∧ u.id ≠ tid := by
  unfold updateClaim at hu
  rcases List.mem_map.mp hu with ⟨w, hw, hwu⟩
  by_cases hid : w.id == tid
  · rw [if_pos hid] at hwu
    rw [← hwu] at hp
    simp at hp
  · rw [if_neg hid] at hwu
    rw [← hwu]
    exact ⟨hw, by simpa using hid⟩

/-- The claim UPDATE preserves the pending-implies-unclaimed invariant. -/
theorem updateClaim_pendingUnclaimed {db : List LTask} {tid : Nat} {a : String}
    {now : Nat} (h : pendingUnclaimed db) :
    pendingUnclaimed (updateClaim db tid a now) := by
  intro u hu hp
  rcases updateClaim_pending_mem hu hp with ⟨hw, _⟩
  exact h u hw hp

/-- Inserting one row grows the sorted list by one. -/
theorem length_insertRow (lt : LTask → LTask → Bool) (x : LTask) (l : List LTask) :
    (insertRow lt x l).length = l.length + 1 := by
  induction l with
  | nil => rfl
  | cons y ys ih =>
      unfold insertRow
      by_cases hx : lt x y
      · rw [if_pos hx]; rfl
      · rw [if_neg hx]; simp [ih]

/-- Sorting keeps the number of rows. -/
theorem length_sortRows (lt : LTask → LTask → Bool) (l : List LTask) :
    (sortRows lt l).length = l.length := by
  induction l with
  | nil => rfl
  | cons y ys ih => simp [sortRows, length_insertRow, ih]

/-- Projection of `claim_task` on a successful SELECT: the printed row
is the re-read of the updated row. -/
theorem claim_task_fst_some {db : List LTask} {a : String} {tf : Option String}
    {now : Nat} {t0 : LTask} (hsel : claimSelect db a tf = some t0) :
    (claim_task db a tf now).1 =
      (updateClaim db t0.id a now).find? (fun u => u.id == t0.id) := by
  rw [claim_task_eq_some hsel]

/-- Projection of `claim_task` on a successful SELECT: the table
afterwards is the table with the UPDATE applied. -/
theorem claim_task_snd_some {db : List LTask} {a : String} {tf : Option String}
    {now : Nat} {t0 : LTask} (hsel : claimSelect db a tf = some t0) :
    (claim_task db a tf now).2 = updateClaim db t0.id a now := by
  rw [claim_task_eq_some hsel]

/-- Projection of `claim_task` on an empty SELECT: the answer is empty. -/
theorem claim_task_fst_none {db : List LTask} {a : String} {tf : Option String}
    {now : Nat} (hsel : claimSelect db a tf = none) :
    (claim_task db a tf now).1 = none := by
  rw [claim_task_eq_none hsel]

/-- Projection of `claim_task` on an empty SELECT: the table is
untouched. -/
theorem claim_task_snd_none {db : List LTask} {a : String} {tf : Option String}
    {now : Nat} (hsel : claimSelect db a tf = none) :
    (claim_task db a tf now).2 = db := by
  rw [claim_task_eq_none hsel]

/-- A row-wise rewrite that either leaves a row alone or moves it out of
`pending` preserves the pending-implies-unclaimed invariant. -/
theorem map_pendingUnclaimed {db : List LTask} {f : LTask → LTask}
    (hf : ∀ t ∈ db, f t = t ∨ (f t).status ≠ "pending")
    (h : pendingUnclaimed db) : pendingUnclaimed (db.map f) := by
  intro u hu hp
  rcases List.mem_map.mp hu with ⟨w, hw, hwu⟩
  rcases hf w hw with h' | h'
  · rw [h'] at hwu
    rw [← hwu] at hp ⊢
    exact h w hw hp
  · rw [hwu] at h'
    exact absurd hp h'

end Queue

namespace SharedQueue

/-- Unfolding `sharedClaim` when the task file is missing. -/
theorem sharedClaim_eq_of_none {tasks : List STask} {tid agent now : String}
    (hl : lookupTask tasks tid = none) :
    sharedClaim tasks tid agent now = (.notFound tid, tasks) := by
  unfold sharedClaim
  rw [hl]

/-- Unfolding `sharedClaim` on a task that is no longer pending. -/
theorem sharedClaim_eq_of_nonpending {tasks : List STask} {tid agent now : String}
    {task : STask} (hl : lookupTask tasks tid = some task)
    (hs : task.status ≠ "pending") :
    sharedClaim tasks tid agent now = (.alreadyStatus task.status, tasks) := by
  unfold sharedClaim
  rw [hl]
  dsimp only
  rw [if_pos (by simpa using hs)]

/-- Unfolding `sharedClaim` on a pending task. -/
theorem sharedClaim_eq_of_pending {tasks : List STask} {tid agent now : String}
    {task : STask} (hl : lookupTask tasks tid = some task)
    (hs : task.status = "pending") :
    sharedClaim tasks tid agent now =
      (.ok { task with status := "running",
                       claimed_by := some agent, claimed_at := some now },
       writeTask tasks { task with status := "running",
                                   claimed_by := some agent, claimed_at := some now }) := by
  unfold sharedClaim
  rw [hl]
  dsimp only
  rw [if_neg (by simp [hs])]

/-- Unfolding `sharedComplete` when the task file is missing. -/
theorem sharedComplete_eq_of_none {tasks : List STask} {tid : String}
    {res : Option String} {now : String} (hl : lookupTask tasks tid = none) :
    sharedComplete tasks tid res now = (.notFound tid, tasks) := by
  unfold sharedComplete
  rw [hl]

/-- Unfolding `sharedComplete` on any existing task: it is rewritten to
done unconditionally. -/
theorem sharedComplete_eq_of_some {tasks : List STask} {tid : String}
    {res : Option String} {now : String} {task : STask}
    (hl : lookupTask tasks tid = some task) :
    sharedComplete tasks tid res now =
      (.ok { task with status := "done", completed_at := some now, result := res },
       writeTask tasks { task with status := "done",
                                   completed_at := some now, result := res }) := by
  unfold sharedComplete
  rw [hl]

/-- A record-wise rewrite that either leaves a record alone or moves it
out of `pending` preserves the pending-implies-unclaimed invariant. -/
theorem map_sharedPendingUnclaimed {tasks : List STask} {f : STask → STask}
    (hf : ∀ t ∈ tasks, f t = t ∨ (f t).status ≠ "pending")
    (h : sharedPendingUnclaimed tasks) : sharedPendingUnclaimed (tasks.map f) := by
  intro u hu hp
  rcases List.mem_map.mp hu with ⟨w, hw, hwu⟩
  rcases hf w hw with h' | h'
  · rw [h'] at hwu
    rw [← hwu] at hp ⊢
    exact h w hw hp
  · rw [hwu] at h'
    exact absurd hp h'

end SharedQueue

/-- C3, counterexample.  `sync` (shared_queue.py lines 39–42) issues one
`git pull --rebase` and one `git push` and returns, even on the run
where the pull succeeds and the push is rejected (`pullOk = true`,
`pushOk = false`): the push appears exactly once in the trace — there is
no re-run of the pull/push steps — and the trace is identical to the one
of a fully successful run, so no retry, no backoff and no
`SyncConflictError` distinguish the rejected push. -/
theorem sync_no_retry_cex :
    SharedQueue.syncTrace true false =
      [SharedQueue.GitCmd.pullRebase, SharedQueue.GitCmd.push] ∧
    (SharedQueue.syncTrace true false).count SharedQueue.GitCmd.push = 1 ∧
    SharedQueue.syncTrace true false = SharedQueue.syncTrace true true := by
  decide

/-- C3, amended: every call of `sync` performs exactly one
`git pull --rebase` followed by exactly one `git push`, whatever the two
exit codes; a rejected push is silently discarded, with no retry, no
backoff, and no `SyncConflictError` surfaced (the script defines no such
error and `run_git` never raises). -/
theorem sync_single_attempt (pullOk pushOk : Bool) :
    SharedQueue.syncTrace pullOk pushOk =
      [SharedQueue.GitCmd.pullRebase, SharedQueue.GitCmd.push] := rfl

/-- C10: `list_tasks` invoked without an explicit limit (the Python
default and the CLI default are both 10) returns at most 10 rows, and
what it returns is the 10-row-truncation of the fully ordered result. -/
theorem list_default_limit_ten (db : List Queue.LTask) (status : Option String) :
    (Queue.list_tasks_cli db status).length ≤ 10 ∧
    Queue.list_tasks_cli db status = (Queue.list_tasks db status db.length).take 10 := by
  constructor
  · unfold Queue.list_tasks_cli Queue.list_tasks
    cases status <;> simp [List.length_take]
  · unfold Queue.list_tasks_cli Queue.list_tasks
    cases status with
    | none =>
        dsimp only
        rw [List.take_of_length_le (le_of_eq (Queue.length_sortRows _ _))]
    | some s =>
        dsimp only
        rw [List.take_of_length_le
          (le_trans (le_of_eq (Queue.length_sortRows _ _)) (List.length_filter_le _ _))]

/-- C7: the shared-store `claim_task` file-system step rejects every
task whose status is not `pending` with the already-claimed error and
leaves the store unchanged (an unknown id gets the not-found error);
only a pending record is rewritten, to `status='running'` with
`claimed_by` the claiming agent and `claimed_at` set. -/
theorem shared_claim_pending_guard (tasks : List SharedQueue.STask)
    (tid agent now : String) :
    (SharedQueue.lookupTask tasks tid = none →
      SharedQueue.sharedClaim tasks tid agent now =
        (SharedQueue.SResult.notFound tid, tasks)) ∧
    ∀ task, SharedQueue.lookupTask tasks tid = some task →
      (task.status ≠ "pending" →
        SharedQueue.sharedClaim tasks tid agent now =
          (SharedQueue.SResult.alreadyStatus task.status, tasks)) ∧
      (task.status = "pending" →
        SharedQueue.sharedClaim tasks tid agent now =
          (SharedQueue.SResult.ok
            { task with status := "running",
                        claimed_by := some agent, claimed_at := some now },
           SharedQueue.writeTask tasks
            { task with status := "running",
                        claimed_by := some agent, claimed_at := some now })) := by
  refine ⟨fun hl => SharedQueue.sharedClaim_eq_of_none hl, fun task hl => ⟨?_, ?_⟩⟩
  · exact fun hs => SharedQueue.sharedClaim_eq_of_nonpending hl hs
  · exact fun hs => SharedQueue.sharedClaim_eq_of_pending hl hs

/-- C7, witness: on a store holding only the record already claimed by
`alice`, a claim by `bob` answers the already-claimed error and leaves
the store unchanged. -/
theorem shared_claim_pending_guard_witness :
    SharedQueue.sharedClaim [Ex.spAlice] "t1" "bob" "2024-01-01T00:02:00" =
      (SharedQueue.SResult.alreadyStatus "running", [Ex.spAlice]) :=
  ((shared_claim_pending_guard [Ex.spAlice] "t1" "bob" "2024-01-01T00:02:00").2
    Ex.spAlice (by decide)).1 (by decide)

/-- C9: every git outcome in the distributed queue is discarded.  The
commit/push exit codes never change the result or the resulting working
copy of `claim_task`, `add_task` or `complete_task`; when the pull
fails, each operation runs on the untouched local copy; `sync` behaves
identically whatever the exit codes; and concretely, a claim whose
pull, commit and push all fail still reports the claimed task as
success.  (`run_git` captures the exit code instead of raising, so no
operation can fail through git.) -/
theorem git_outcomes_discarded :
    (∀ (po c₁ p₁ c₂ p₂ : Bool) (pm loc : List SharedQueue.STask) (tid a now : String),
      SharedQueue.sharedClaimRun ⟨po, pm, c₁, p₁⟩ loc tid a now =
        SharedQueue.sharedClaimRun ⟨po, pm, c₂, p₂⟩ loc tid a now) ∧
    (∀ (c p : Bool) (pm loc : List SharedQueue.STask) (tid a now : String),
      SharedQueue.sharedClaimRun ⟨false, pm, c, p⟩ loc tid a now =
        SharedQueue.sharedClaim loc tid a now) ∧
    (∀ (po c₁ p₁ c₂ p₂ : Bool) (pm loc : List SharedQueue.STask)
        (tid title : String) (desc : Option String) (ty fa now cb : String),
      SharedQueue.sharedAddRun ⟨po, pm, c₁, p₁⟩ loc tid title desc ty fa now cb =
        SharedQueue.sharedAddRun ⟨po, pm, c₂, p₂⟩ loc tid title desc ty fa now cb) ∧
    (∀ (c p : Bool) (pm loc : List SharedQueue.STask)
        (tid title : String) (desc : Option String) (ty fa now cb : String),
      SharedQueue.sharedAddRun ⟨false, pm, c, p⟩ loc tid title desc ty fa now cb =
        SharedQueue.sharedAdd loc tid title desc ty fa now cb) ∧
    (∀ (po c₁ p₁ c₂ p₂ : Bool) (pm loc : List SharedQueue.STask)
        (tid : String) (res : Option String) (now : String),
      SharedQueue.sharedCompleteRun ⟨po, pm, c₁, p₁⟩ loc tid res now =
        SharedQueue.sharedCompleteRun ⟨po, pm, c₂, p₂⟩ loc tid res now) ∧
    (∀ (c p : Bool) (pm loc : List SharedQueue.STask)
        (tid : String) (res : Option String) (now : String),
      SharedQueue.sharedCompleteRun ⟨false, pm, c, p⟩ loc tid res now =
        SharedQueue.sharedComplete loc tid res now) ∧
    (∀ a b c d : Bool, SharedQueue.syncTrace a b = SharedQueue.syncTrace c d) ∧
    SharedQueue.sharedClaimRun ⟨false, [], false, false⟩ [Ex.sp] "t1" "alice"
        "2024-01-01T00:01:00" =
      (SharedQueue.SResult.ok Ex.spAlice, [Ex.spAlice]) := by
  refine ⟨?_, ?_, ?_, ?_, ?_, ?_, ?_, ?_⟩ <;> intros <;> rfl

/-- C2, counterexample.  Two replicas hold the same pending task `sp`;
replica `alice` claims it at 00:01:00 and replica `bob` at the later
00:02:00, so under the claim's rule `alice` wins and `bob`'s subsequent
`complete` must fail with `AlreadyClaimedError`.  But on a working copy
holding the winning record (claimed by `alice`), `complete_task` —
which never reads `status` or `claimed_by` — succeeds and overwrites the
record to done.  No already-claimed failure of `complete` exists in the
script. -/
theorem shared_complete_loser_succeeds_cex :
    (SharedQueue.sharedClaim [Ex.sp] "t1" "alice" "2024-01-01T00:01:00").1 =
      SharedQueue.SResult.ok Ex.spAlice ∧
    (SharedQueue.sharedClaim [Ex.sp] "t1" "bob" "2024-01-01T00:02:00").1 =
      SharedQueue.SResult.ok Ex.spBob ∧
    Ex.spAlice.claimed_at = some "2024-01-01T00:01:00" ∧
    Ex.spBob.claimed_at = some "2024-01-01T00:02:00" ∧
    "2024-01-01T00:01:00".data < "2024-01-01T00:02:00".data ∧
    SharedQueue.sharedComplete [Ex.spAlice] "t1" (some "r") "2024-01-01T00:03:00" =
      (SharedQueue.SResult.ok Ex.spDone, [Ex.spDone]) ∧
    Ex.spDone.status = "done" ∧ Ex.spDone.claimed_by = some "alice" := by
  refine ⟨rfl, rfl, rfl, rfl, by decide, rfl, rfl, rfl⟩

/-- C2, amended: after two replicas claim the same task concurrently the
script provides no deterministic convergence — `sync` reacts to no git
outcome, behaving identically whether the pull or push succeeded or
failed — and the losing replica's `complete` does not fail: `complete`
succeeds on every present id, rewriting the record to done whatever its
status and claimant, so no `AlreadyClaimedError` is ever raised by
`complete`. -/
theorem shared_no_deterministic_convergence (tasks : List SharedQueue.STask)
    (tid : String) (res : Option String) (now : String) :
    (∀ a b c d : Bool, SharedQueue.syncTrace a b = SharedQueue.syncTrace c d) ∧
    (∀ task, SharedQueue.lookupTask tasks tid = some task →
      (SharedQueue.sharedComplete tasks tid res now).1 =
        SharedQueue.SResult.ok
          { task with status := "done", completed_at := some now, result := res }) := by
  refine ⟨fun _ _ _ _ => rfl, fun task hl => ?_⟩
  rw [SharedQueue.sharedComplete_eq_of_some hl]

/-- C2, amended, witness: the complete of the losing replica on the
record claimed by the winner succeeds. -/
theorem shared_no_deterministic_convergence_witness :
    (SharedQueue.sharedComplete [Ex.spAlice] "t1" (some "r") "2024-01-01T00:03:00").1 =
      SharedQueue.SResult.ok Ex.spDone :=
  (shared_no_deterministic_convergence [Ex.spAlice] "t1" (some "r")
    "2024-01-01T00:03:00").2 Ex.spAlice (by decide)

/-- C4, counterexample.  `only1` is pending, not running, yet
`complete_task` (queue.py lines 88–95) rewrites its status,
`completed_at` and `result` and reports success — no `InvalidStateError`
exists in the script; on an unknown id (5 against an empty table) the
table is unchanged but success is still printed — no `NotFoundError`
either; `fail_task` behaves the same way. -/
theorem complete_nonrunning_mutates_cex :
    Ex.only1.status = "pending" ∧
    Queue.complete_task [Ex.only1] 1 (some "r") 7 =
      [{ Ex.only1 with status := "done", completed_at := some 7, result := some "r" }] ∧
    Queue.complete_report 1 = (1, "done") ∧
    Queue.complete_task [] 5 (some "r") 7 = ([] : List Queue.LTask) ∧
    Queue.complete_report 5 = (5, "done") ∧
    Queue.fail_task [Ex.only1] 1 (some "e") 7 =
      [{ Ex.only1 with status := "failed", completed_at := some 7, error := some "e" }] := by
  refine ⟨rfl, by decide, rfl, rfl, rfl, by decide⟩

/-- C4, amended: the local `complete_task`/`fail_task` update
unconditionally — every row with the given id is overwritten to
done/failed with `completed_at` and `result`/`error` set, whatever its
prior status, rows with other ids are untouched, and success is always
reported, so there is no `InvalidStateError` and no `NotFoundError`; the
shared-store `complete_task` reports not-found for a missing id and
leaves the store unchanged, but completes a present task from any
status. -/
theorem complete_fail_unconditional (db : List Queue.LTask) (tid : Nat)
    (res err : Option String) (now : Nat) :
    (∀ t ∈ db, t.id = tid →
      { t with status := "done", completed_at := some now, result := res } ∈
        Queue.complete_task db tid res now) ∧
    (∀ t ∈ db, t.id ≠ tid → t ∈ Queue.complete_task db tid res now) ∧
    (∀ t ∈ db, t.id = tid →
      { t with status := "failed", completed_at := some now, error := err } ∈
        Queue.fail_task db tid err now) ∧
    (∀ t ∈ db, t.id ≠ tid → t ∈ Queue.fail_task db tid err now) ∧
    Queue.complete_report tid = (tid, "done") ∧
    Queue.fail_report tid = (tid, "failed") ∧
    (∀ (tasks : List SharedQueue.STask) (stid : String) (r : Option String)
        (snow : String) task, SharedQueue.lookupTask tasks stid = some task →
      SharedQueue.sharedComplete tasks stid r snow =
        (SharedQueue.SResult.ok
          { task with status := "done", completed_at := some snow, result := r },
         SharedQueue.writeTask tasks
          { task with status := "done", completed_at := some snow, result := r })) ∧
    (∀ (tasks : List SharedQueue.STask) (stid : String) (r : Option String)
        (snow : String), SharedQueue.lookupTask tasks stid = none →
      SharedQueue.sharedComplete tasks stid r snow =
        (SharedQueue.SResult.notFound stid, tasks)) := by
  refine ⟨?_, ?_, ?_, ?_, rfl, rfl,
    fun tasks stid r snow task hl => SharedQueue.sharedComplete_eq_of_some hl,
    fun tasks stid r snow hl => SharedQueue.sharedComplete_eq_of_none hl⟩ <;>
    intro t ht h
  · exact List.mem_map.mpr ⟨t, ht, by rw [if_pos (by simp [h])]⟩
  · exact List.mem_map.mpr ⟨t, ht, by rw [if_neg (by simp [h])]⟩
  · exact List.mem_map.mpr ⟨t, ht, by rw [if_pos (by simp [h])]⟩
  · exact List.mem_map.mpr ⟨t, ht, by rw [if_neg (by simp [h])]⟩

/-- C4, amended, witness: completing the pending row overwrites it. -/
theorem complete_fail_unconditional_witness :
    { Ex.only1 with status := "done", completed_at := some 7, result := some "r" } ∈
      Queue.complete_task [Ex.only1] 1 (some "r") 7 :=
  (complete_fail_unconditional [Ex.only1] 1 (some "r") (some "e") 7).1
    Ex.only1 (by decide) (by decide)

/-- C1, counterexample.  The claim of `claim_task` is two SQL statements
— a SELECT (queue.py lines 63–71) and an unconditional UPDATE (lines
78–81) — and only each single statement is atomic.  Under the
interleaving SELECT(a), SELECT(b), UPDATE(a), re-read(a), UPDATE(b),
re-read(b) against a store holding exactly one pending task, both
concurrent claimers select the same row 1 (the SELECT does not mutate,
so the second claimer still sees the row pending), and both then update
it and print a non-empty task: both `claim` calls return the task
instead of exactly one, and the UPDATE of `b` silently overwrites the
claim of `a`. -/
theorem claim_interleaving_not_atomic_cex :
    Queue.claimSelect [Ex.only1] "a" none = some Ex.only1 ∧
    Queue.claimSelect [Ex.only1] "b" none = some Ex.only1 ∧
    (Queue.updateClaim [Ex.only1] 1 "a" 10).find? (fun u => u.id == 1) =
      some Ex.only1A ∧
    (Queue.updateClaim (Queue.updateClaim [Ex.only1] 1 "a" 10) 1 "b" 11).find?
      (fun u => u.id == 1) = some Ex.only1B ∧
    Ex.only1A.claimed_by = some "a" ∧ Ex.only1B.claimed_by = some "b" := by
  refine ⟨by decide, by decide, by decide, by decide, rfl, rfl⟩

/-- C1, amended: atomicity holds only statement-by-statement, so the
exactly-one-winner property holds for `claim_task` calls that do not
interleave.  When a serial `claim_task` returns a task, any later
`claim_task` against the resulting store returns a different id, and if
the claimed task was the only pending one, the later call returns
Empty. -/
theorem claim_serial_mutual_exclusion (db : List Queue.LTask) (a1 a2 : String)
    (tf : Option String) (n1 n2 : Nat) (t : Queue.LTask)
    (h : (Queue.claim_task db a1 tf n1).1 = some t) :
    (∀ u, (Queue.claim_task (Queue.claim_task db a1 tf n1).2 a2 tf n2).1 = some u →
      u.id ≠ t.id) ∧
    ((∀ w ∈ db, w.status = "pending" → w.id = t.id) →
      (Queue.claim_task (Queue.claim_task db a1 tf n1).2 a2 tf n2).1 = none) := by
  cases hsel : Queue.claimSelect db a1 tf with
  | none =>
      rw [Queue.claim_task_fst_none hsel] at h
      simp at h
  | some t0 =>
      rw [Queue.claim_task_fst_some hsel] at h
      have htid : t.id = t0.id := Queue.find_id_eq h
      rw [Queue.claim_task_snd_some hsel]
      have key : ∀ u ∈ Queue.updateClaim db t0.id a1 n1,
          Queue.eligible a2 tf u = true → u ∈ db ∧ u.id ≠ t0.id := by
        intro u hu he
        exact Queue.updateClaim_pending_mem hu (Queue.eligible_pending he)
      constructor
      · intro u hu
        cases hsel2 : Queue.claimSelect (Queue.updateClaim db t0.id a1 n1) a2 tf with
        | none =>
            rw [Queue.claim_task_fst_none hsel2] at hu
            simp at hu
        | some u0 =>
            rw [Queue.claim_task_fst_some hsel2] at hu
            have hu0 : u.id = u0.id := Queue.find_id_eq hu
            obtain ⟨hm, he, _⟩ := Queue.claimSelect_spec hsel2
            rw [hu0, htid]
            exact (key u0 hm he).2
      · intro huniq
        have hnone : Queue.claimSelect (Queue.updateClaim db t0.id a1 n1) a2 tf = none := by
          apply Queue.claimSelect_eq_none
          intro u hu he
          have hk := key u hu he
          exact hk.2 ((huniq u hk.1 (Queue.eligible_pending he)).trans htid)
        rw [Queue.claim_task_fst_none hnone]

/-- C1, amended, witness: on the one-pending-task store, the serial
second claim comes back Empty. -/
theorem claim_serial_mutual_exclusion_witness :
    (Queue.claim_task (Queue.claim_task [Ex.only1] "a" none 10).2 "b" none 11).1 =
      none :=
  (claim_serial_mutual_exclusion [Ex.only1] "a" "b" none 10 11 Ex.only1A
    (by decide)).2 (by decide)

/-- C5: whenever `claim_task` returns a task, that task is (the claimed
re-read of) a row of the store that satisfies the WHERE clause — pending
and targeted at the claiming agent or at `any`, matching the type filter
when one is given — and no other qualifying row is strictly smaller
under `(priority ASC, created_at ASC)`; and concretely, on the store
with priorities [30, 10, 20] added in that order, three successive
claims return priorities 10, 20, 30. -/
theorem claim_returns_minimal_eligible :
    (∀ (db : List Queue.LTask) (a : String) (tf : Option String) (now : Nat)
        (v : Queue.LTask), (Queue.claim_task db a tf now).1 = some v →
      ∃ t, t ∈ db ∧ Queue.eligible a tf t = true ∧ v.id = t.id ∧
        ∀ u ∈ db, Queue.eligible a tf u = true → ¬ Queue.keyLt u t) ∧
    ((Queue.claim_task Ex.dbPrio "x" none 3).1.map Queue.LTask.priority = some 10 ∧
     (Queue.claim_task Ex.dbPrio1 "x" none 4).1.map Queue.LTask.priority = some 20 ∧
     (Queue.claim_task Ex.dbPrio2 "x" none 5).1.map Queue.LTask.priority = some 30) := by
  constructor
  · intro db a tf now v h
    cases hsel : Queue.claimSelect db a tf with
    | none =>
        rw [Queue.claim_task_fst_none hsel] at h
        simp at h
    | some t0 =>
        rw [Queue.claim_task_fst_some hsel] at h
        obtain ⟨hm, he, hmin⟩ := Queue.claimSelect_spec hsel
        exact ⟨t0, hm, he, Queue.find_id_eq h, hmin⟩
  · refine ⟨by decide, by decide, by decide⟩

/-- C5, witness: the first claim against the [30, 10, 20] store returns
the priority-10 row (id 2), which qualifies and is minimal. -/
theorem claim_returns_minimal_eligible_witness :
    ∃ t, t ∈ Ex.dbPrio ∧ Queue.eligible "x" none t = true ∧ Ex.vB.id = t.id ∧
      ∀ u ∈ Ex.dbPrio, Queue.eligible "x" none u = true → ¬ Queue.keyLt u t :=
  claim_returns_minimal_eligible.1 Ex.dbPrio "x" none 3 Ex.vB (by decide)

/-- C6: in a store whose rows are in ascending id order (as the
autoincrement rowid keeps them), whenever the claim SELECT returns a
row, every qualifying row with the same priority and the same creation
instant has an id at least as large — among ties the earliest-inserted,
least-id row wins, deterministically; concretely, of two identical-key
rows the first claim takes id 1 and the next claim takes id 2. -/
theorem claim_tie_break_insertion_order :
    (∀ (db : List Queue.LTask) (a : String) (tf : Option String) (t : Queue.LTask),
      db.Pairwise (fun p q => p.id < q.id) →
      Queue.claimSelect db a tf = some t →
      ∀ u ∈ db, Queue.eligible a tf u = true → Queue.keyEq u t → t.id ≤ u.id) ∧
    ((Queue.claimSelect [Ex.tie1, Ex.tie2] "x" none).map Queue.LTask.id = some 1 ∧
     (Queue.claim_task [Ex.tie1, Ex.tie2] "x" none 9).1.map Queue.LTask.id = some 1 ∧
     (Queue.claim_task
        (Queue.claim_task [Ex.tie1, Ex.tie2] "x" none 9).2 "x" none 9).1.map
          Queue.LTask.id = some 2) := by
  constructor
  · intro db a tf t hsort h u hu he hk
    unfold Queue.claimSelect at h
    have hsf := hsort.filter (Queue.eligible a tf)
    have hufl : u ∈ db.filter (Queue.eligible a tf) := List.mem_filter.mpr ⟨hu, he⟩
    cases hfl : db.filter (Queue.eligible a tf) with
    | nil =>
        rw [hfl] at hufl
        cases hufl
    | cons f fs =>
        rw [hfl] at h hufl hsf
        simp only [Queue.selectMin] at h
        exact Queue.selectMin_tie_first hsf h u hufl hk
  · refine ⟨by decide, by decide, by decide⟩

/-- C6, witness: of the two rows with identical priority 50 and
identical creation instant 7, the SELECT picks the one inserted first. -/
theorem claim_tie_break_insertion_order_witness :
    Ex.tie1.id ≤ Ex.tie2.id :=
  claim_tie_break_insertion_order.1 [Ex.tie1, Ex.tie2] "x" none Ex.tie1
    (by decide) (by decide) Ex.tie2 (by decide) (by decide) (by decide)

/-- C8: every operation of both stores preserves the invariant that a
pending task has no claimant.  `add_task` of either store creates its
record pending with `claimed_by = null`; the claim UPDATE sets
`claimed_by` only while simultaneously rewriting the status to running;
`complete_task`/`fail_task` move rows out of pending or leave them
alone.  So after any operation, every pending record still has
`claimed_by = null`. -/
theorem pending_unclaimed_invariant :
    (∀ (db : List Queue.LTask) (title : String) (desc : Option String)
        (ttype : String) (prio : Int) (ag : String) (now : Nat),
      Queue.pendingUnclaimed db →
      Queue.pendingUnclaimed (Queue.add_task db title desc ttype prio ag now).1) ∧
    (∀ (db : List Queue.LTask) (title : String) (desc : Option String)
        (ttype : String) (prio : Int) (ag : String) (now : Nat), ∃ r,
      (Queue.add_task db title desc ttype prio ag now).1 = db ++ [r] ∧
      r.status = "pending" ∧ r.claimed_by = none) ∧
    (∀ (db : List Queue.LTask) (a : String) (tf : Option String) (now : Nat),
      Queue.pendingUnclaimed db →
      Queue.pendingUnclaimed (Queue.claim_task db a tf now).2) ∧
    (∀ (db : List Queue.LTask) (tid : Nat) (res : Option String) (now : Nat),
      Queue.pendingUnclaimed db →
      Queue.pendingUnclaimed (Queue.complete_task db tid res now)) ∧
    (∀ (db : List Queue.LTask) (tid : Nat) (err : Option String) (now : Nat),
      Queue.pendingUnclaimed db →
      Queue.pendingUnclaimed (Queue.fail_task db tid err now)) ∧
    (∀ (tasks : List SharedQueue.STask) (tid title : String) (desc : Option String)
        (ty fa now cb : String),
      SharedQueue.sharedPendingUnclaimed tasks →
      SharedQueue.sharedPendingUnclaimed
        (SharedQueue.sharedAdd tasks tid title desc ty fa now cb)) ∧
    (∀ (tasks : List SharedQueue.STask) (tid title : String) (desc : Option String)
        (ty fa now cb : String), ∃ r,
      SharedQueue.sharedAdd tasks tid title desc ty fa now cb = tasks ++ [r] ∧
      r.status = "pending" ∧ r.claimed_by = none) ∧
    (∀ (tasks : List SharedQueue.STask) (tid ag now : String),
      SharedQueue.sharedPendingUnclaimed tasks →
      SharedQueue.sharedPendingUnclaimed
        (SharedQueue.sharedClaim tasks tid ag now).2) ∧
    (∀ (tasks : List SharedQueue.STask) (tid : String) (res : Option String)
        (now : String),
      SharedQueue.sharedPendingUnclaimed tasks →
      SharedQueue.sharedPendingUnclaimed
        (SharedQueue.sharedComplete tasks tid res now).2) := by
  refine ⟨?_, ?_, ?_, ?_, ?_, ?_, ?_, ?_, ?_⟩
  · intro db title desc ttype prio ag now hinv t ht hp
    rcases List.mem_append.mp ht with h' | h'
    · exact hinv t h' hp
    · rw [List.mem_singleton.mp h']
  · intro db title desc ttype prio ag now
    exact ⟨_, rfl, rfl, rfl⟩
  · intro db a tf now hinv
    cases hsel : Queue.claimSelect db a tf with
    | none =>
        rw [Queue.claim_task_snd_none hsel]
        exact hinv
    | some t0 =>
        rw [Queue.claim_task_snd_some hsel]
        exact Queue.updateClaim_pendingUnclaimed hinv
  · intro db tid res now hinv
    refine Queue.map_pendingUnclaimed ?_ hinv
    intro t _
    by_cases hid : t.id == tid
    · right
      rw [if_pos hid]
      simp
    · left
      rw [if_neg hid]
  · intro db tid err now hinv
    refine Queue.map_pendingUnclaimed ?_ hinv
    intro t _
    by_cases hid : t.id == tid
    · right
      rw [if_pos hid]
      simp
    · left
      rw [if_neg hid]
  · intro tasks tid title desc ty fa now cb hinv t ht hp
    rcases List.mem_append.mp ht with h' | h'
    · exact hinv t h' hp
    · rw [List.mem_singleton.mp h']
  · intro tasks tid title desc ty fa now cb
    exact ⟨_, rfl, rfl, rfl⟩
  · intro tasks tid ag now hinv
    cases hl : SharedQueue.lookupTask tasks tid with
    | none =>
        rw [SharedQueue.sharedClaim_eq_of_none hl]
        exact hinv
    | some task =>
        by_cases hs : task.status = "pending"
        · rw [SharedQueue.sharedClaim_eq_of_pending hl hs]
          refine SharedQueue.map_sharedPendingUnclaimed ?_ hinv
          intro w _
          by_cases hid : w.id ==
              ({ task with status := "running", claimed_by := some ag,
                           claimed_at := some now } : SharedQueue.STask).id
          · right
            rw [if_pos hid]
            simp
          · left
            rw [if_neg hid]
        · rw [SharedQueue.sharedClaim_eq_of_nonpending hl hs]
          exact hinv
  · intro tasks tid res now hinv
    cases hl : SharedQueue.lookupTask tasks tid with
    | none =>
        rw [SharedQueue.sharedComplete_eq_of_none hl]
        exact hinv
    | some task =>
        rw [SharedQueue.sharedComplete_eq_of_some hl]
        refine SharedQueue.map_sharedPendingUnclaimed ?_ hinv
        intro w _
        by_cases hid : w.id ==
            ({ task with status := "done", completed_at := some now,
                         result := res } : SharedQueue.STask).id
        · right
          rw [if_pos hid]
          simp
        · left
          rw [if_neg hid]

/-- C8, witness: after claiming the single pending task, the resulting
store still satisfies the pending-implies-unclaimed invariant. -/
theorem pending_unclaimed_invariant_witness :
    Queue.pendingUnclaimed (Queue.claim_task [Ex.only1] "a" none 10).2 :=
  pending_unclaimed_invariant.2.2.1 [Ex.only1] "a" none 10 (by decide)
